import Mathlib

/-!
# RemoteAgent (src/LiveDevelopment/Agents/RemoteAgent.js)

A shallow embedding of the Brackets live-development remote agent: the remote
call dispatcher (`_call`, `call`, `jQueryRemote`), the heartbeat timer, the
load / unload lifecycle with its two script injections, the element proxy and
the attribute-event relay.

JavaScript values are a small inductive type.  A number is given by the
decimal digits and exponent from which ECMAScript prints it, so no
floating-point arithmetic is needed.  Asynchrony is modelled in two ways: a
promise value carries the state it eventually settles in, and the lifecycle is
a step function over the notifications and replies the agent can receive, in
any order.
-/

namespace RemoteAgent

/-! ## JavaScript values -/

/-- A Number value, given the way ECMAScript 9.8.1 reads it for printing: NaN,
an infinity, a zero, or a finite nonzero number of magnitude
`s * 10 ^ (n - k)`, where `k` is the count of decimal digits of `s` and `s` is
as short as the value allows (positive, not a multiple of ten). -/
inductive Num where
  | nan
  | infinity (negative : Bool)
  | zero (negative : Bool)
  | finite (negative : Bool) (s : Nat) (n : Int)

/-- Drop the trailing decimal zeros of `v`. -/
def stripZeros : Nat → Nat → Nat
  | 0, v => v
  | fuel + 1, v => if v % 10 = 0 then stripZeros fuel (v / 10) else v

/-- The Number value equal to the natural number `v`, for a `v` that a Number
holds exactly. -/
def Num.ofNat (v : Nat) : Num :=
  if v = 0 then .zero false
  else .finite false (stripZeros v v) (Nat.toDigits 10 v).length

/-- The exponent part of ECMAScript 9.8.1 steps 9 and 10, after the `e`: a
sign and the decimal digits of the magnitude of `e`. -/
def exponentText (e : Int) : List Char :=
  (if e < 0 then '-' else '+') :: Nat.toDigits 10 e.natAbs

/-- ECMAScript 9.8.1 steps 6 to 10, for the digits `s` and the exponent `n` of
a positive number. -/
def positiveText (s : Nat) (n : Int) : List Char :=
  let digits := Nat.toDigits 10 s
  let k : Int := digits.length
  if k ≤ n ∧ n ≤ 21 then digits ++ List.replicate (n - k).toNat '0'
  else if 0 < n ∧ n ≤ 21 then digits.take n.toNat ++ '.' :: digits.drop n.toNat
  else if -6 < n ∧ n ≤ 0 then '0' :: '.' :: (List.replicate (-n).toNat '0' ++ digits)
  else if k = 1 then digits ++ 'e' :: exponentText (n - 1)
  else digits.take 1 ++ '.' :: (digits.drop 1 ++ 'e' :: exponentText (n - 1))

/-- ToString applied to a Number (ECMAScript 9.8.1). -/
def numberToString : Num → String
  | .nan => "NaN"
  | .infinity false => "Infinity"
  | .infinity true => "-Infinity"
  | .zero _ => "0"
  | .finite false s n => ⟨positiveText s n⟩
  | .finite true s n => ⟨'-' :: positiveText s n⟩

/-- State in which a jQuery deferred eventually stands. -/
inductive Settled (α : Type) where
  | pending
  | resolved (v : α)
  | rejected (v : α)

/-- JavaScript values as far as the agent inspects them.  The constructor
`func id ret` is a callable that returns `ret`; `obj` is an object with the
listed own properties; `promise st props` is a jQuery promise that eventually
stands in state `st` and carries the extra own properties `props`. -/
inductive Val where
  | undefined
  | null
  | bool (b : Bool)
  | num (x : Num)
  | str (s : String)
  | func (id : Nat) (ret : Val)
  | obj (props : List (String × Val))
  | promise (state : Settled Val) (props : List (String × Val))

/-- ToBoolean. -/
def truthy : Val → Bool
  | .undefined => false
  | .null => false
  | .bool b => b
  | .num .nan => false
  | .num (.zero _) => false
  | .num (.infinity _) => true
  | .num (.finite _ s _) => s != 0
  | .str s => s != ""
  | .func _ _ => true
  | .obj _ => true
  | .promise _ _ => true

/-- The test `typeof v === "function"`. -/
def isFunction : Val → Bool
  | .func _ _ => true
  | _ => false

/-- First own property named `k` of a property list, `undefined` when absent. -/
def lookup : List (String × Val) → String → Val
  | [], _ => .undefined
  | (k', v) :: rest, k => if k' = k then v else lookup rest k

/-- Property read `v.k`.  Reading a property of `undefined` or `null` throws;
primitives and functions expose none of the properties the agent reads. -/
def getProp : Val → String → Except String Val
  | .undefined, _ => .error "TypeError: cannot read property of undefined"
  | .null, _ => .error "TypeError: cannot read property of null"
  | .obj props, k => .ok (lookup props k)
  | .promise _ props, k => .ok (lookup props k)
  | _, _ => .ok .undefined

/-- The method `Array.prototype.map` with a callback that may throw. -/
def mapE (f : Val → Except String β) : List Val → Except String (List β)
  | [] => .ok []
  | a :: rest =>
    match f a with
    | .error e => .error e
    | .ok b =>
      match mapE f rest with
      | .error e => .error e
      | .ok bs => .ok (b :: bs)

/-! ## Module state -/

/-- State of the deferred held in `_load`. -/
inductive LoadState where
  | pending
  | resolved
  | rejected (error : Val)

/-- The call `deferred.resolve()`: only a pending deferred changes. -/
def LoadState.resolve : LoadState → LoadState
  | .pending => .resolved
  | d => d

/-- The call `deferred.reject(null, error)`: only a pending deferred changes. -/
def LoadState.reject (error : Val) : LoadState → LoadState
  | .pending => .rejected error
  | d => d

/-- One entry of a `callFunctionOn` parameter list: `{objectId: id}` or
`{value: v}`. -/
inductive Param where
  | objectId (id : Val)
  | value (v : Val)

/-- The operation `Inspector.Runtime.callFunctionOn(objectId, method, params,
undefined, callback)`. -/
structure CallFunctionOn where
  objectId : Val
  method : String
  params : List Param
  callback : Val

/-- Payload of `DOM.attributeModified`. -/
structure AttributeModified where
  nodeId : Val
  name : String
  value : Val

/-- Which `onEvaluate` callback an outstanding `Runtime.evaluate` holds. -/
inductive Injection where
  | remoteFunctions
  | jQuery

/-- An `Inspector.Runtime.evaluate` request awaiting its response. -/
structure Evaluation where
  expression : String
  callback : Injection

/-- Response handed to an `onEvaluate` callback. -/
structure Response where
  error : Val
  wasThrown : Val
  result : Val

/-- The module variables of RemoteAgent.js together with the part of the
environment they act on: how many times the `.RemoteAgent` handlers are
subscribed, the outstanding evaluate requests, the interval timers of
`window`, the events triggered on `$exports`, the `callFunctionOn` operations
sent, and the console. -/
structure Agent where
  _load : Option LoadState
  _objectId : Val
  _jQueryRemoteObjectId : Val
  _intervalId : Option Nat
  subscriptions : Nat
  evaluations : List Evaluation
  timers : List Nat
  nextTimer : Nat
  triggered : List (String × AttributeModified)
  wire : List CallFunctionOn
  console : List String

/-- The module right after it is defined: every variable undefined, nothing
subscribed, no timer; `window.setInterval` hands out positive handles. -/
def Agent.init : Agent :=
  { _load := none, _objectId := .undefined, _jQueryRemoteObjectId := .undefined,
    _intervalId := none, subscriptions := 0, evaluations := [], timers := [],
    nextTimer := 1, triggered := [], wire := [], console := [] }

/-! ## `_call`, `call`, `jQueryRemote` -/

/-- Message of the `console.assert` at the top of `_call`. -/
def assertMessage : String := "Attempted to call remote method without objectId set."

/-- Lines 67-70: when the last argument is a function it is popped off as the
callback. -/
def detachCallback (args : List Val) : Val × List Val :=
  match args.getLast? with
  | some f => if isFunction f then (f, args.dropLast) else (.undefined, args)
  | none => (.undefined, args)

/-- Method call `arg.resolve()`. -/
def callResolve (arg : Val) : Except String Val :=
  match getProp arg "resolve" with
  | .ok (.func _ ret) => .ok ret
  | .ok _ => .error "TypeError: arg.resolve is not a function"
  | .error e => .error e

/-- Lines 73-79, the callback of `args.map`: an argument with a truthy
`nodeId` is replaced by what its `resolve()` returns. -/
def resolveNode (arg : Val) : Except String Val :=
  if truthy arg then
    match getProp arg "nodeId" with
    | .error e => .error e
    | .ok nodeId => if truthy nodeId then callResolve arg else .ok arg
  else .ok arg

/-- What `$.when` subscribes to for one argument: the state of the promise
behind it, a plain value counting as resolved with itself. -/
def subscribe : Val → Except String (Settled Val)
  | .promise st _ => .ok st
  | .obj props =>
    match lookup props "promise" with
    | .func _ (.promise st _) => .ok st
    | .func _ _ => .error "TypeError: promise().done is not a function"
    | _ => .ok (.resolved (.obj props))
  | v => .ok (.resolved v)

/-- Whether a subscribed state is resolved. -/
def Settled.isResolved : Settled α → Bool
  | .resolved _ => true
  | _ => false

/-- Whether the `done` callback of `$.when.apply(undefined, args)` ever runs:
every argument it subscribes to resolves. -/
def whenDone (args : List Val) : Except String Bool :=
  match mapE subscribe args with
  | .error e => .error e
  | .ok states => .ok (states.all Settled.isResolved)

/-- Lines 84-90, the callback of `args.forEach`. -/
def toParam (arg : Val) : Except String Param :=
  match getProp arg "objectId" with
  | .error e => .error e
  | .ok objectId => if truthy objectId then .ok (.objectId objectId) else .ok (.value arg)

/-- What a call ends in: an exception, or the promise it returns, given by the
state that promise eventually stands in. -/
inductive Returned where
  | threw (error : String)
  | promise (state : Settled Val)

/-- Observable outcome of one `_call`. -/
structure CallResult where
  asserts : List String
  issued : List CallFunctionOn
  returned : Returned

/-- Lines 61-97.  `reply` is the state of the promise `callFunctionOn`
returns.  `console.assert` reports a falsy `objectId` and execution goes on. -/
def _call (reply : Settled Val) (objectId : Val) (method : String)
    (varargs : List Val) : CallResult :=
  let asserts := if truthy objectId then [] else [assertMessage]
  let (callback, args) := detachCallback varargs
  match mapE resolveNode args with
  | .error e => ⟨asserts, [], .threw e⟩
  | .ok args =>
    match whenDone args with
    | .error e => ⟨asserts, [], .threw e⟩
    | .ok false => ⟨asserts, [], .promise .pending⟩
    | .ok true =>
      match mapE toParam args with
      | .error e => ⟨asserts, [], .threw e⟩
      | .ok params => ⟨asserts, [⟨objectId, method, params, callback⟩], .promise reply⟩

/-- Lines 104-112. -/
def call (s : Agent) (reply : Settled Val) (method : String) (args : List Val) :
    CallResult :=
  _call reply s._objectId ("_LD." ++ method) args

/-- Lines 114-116: `args` is the argument list after `method`; the named
parameter `varargs` is its first entry, `undefined` when there is none. -/
def jQueryRemote (s : Agent) (reply : Settled Val) (method : String)
    (args : List Val) : CallResult :=
  let varargs := args.headD .undefined
  _call reply s._jQueryRemoteObjectId ("_LDjQuery." ++ method) [varargs]

/-! ## Heartbeat -/

/-- The call `window.clearInterval(id)`. -/
def clearInterval (s : Agent) (id : Nat) : Agent :=
  { s with timers := s.timers.filter (fun t => t != id) }

/-- Lines 118-123.  The guard `if (_intervalId)` is false for an undefined or
null variable and for the number zero. -/
def _stopKeepAliveInterval (s : Agent) : Agent :=
  match s._intervalId with
  | some id => if id != 0 then { clearInterval s id with _intervalId := none } else s
  | none => s

/-- Lines 125-131: stop, then `window.setInterval` hands out a fresh handle
that is stored in `_intervalId`. -/
def _startKeepAliveInterval (s : Agent) : Agent :=
  let s := _stopKeepAliveInterval s
  { s with _intervalId := some s.nextTimer,
           timers := s.nextTimer :: s.timers,
           nextTimer := s.nextTimer + 1 }

/-- The interval callback of line 129, `call("keepAlive")`. -/
def keepAlive (s : Agent) (reply : Settled Val) : Agent :=
  let r := call s reply "keepAlive" []
  { s with wire := s.wire ++ r.issued, console := s.console ++ r.asserts }

/-! ## Lifecycle -/

/-- The modules RemoteAgent.js requires as text or configuration. -/
structure Env where
  RemoteFunctions : String
  jQueryRemoteSrc : String
  experimental : String

/-- Lines 137-139. -/
def _onFrameStartedLoading (s : Agent) : Agent :=
  _stopKeepAliveInterval s

/-- Lines 148-157, the callback of the RemoteFunctions injection.  A property
read that throws ends the callback where it stands. -/
def onEvaluateRemoteFunctions (s : Agent) (response : Response) : Agent :=
  if truthy response.error || truthy response.wasThrown then
    match s._load with
    | none => s
    | some d => { s with _load := some (d.reject response.error) }
  else
    match getProp response.result "objectId" with
    | .error _ => s
    | .ok objectId =>
      let s := { s with _objectId := objectId }
      match s._load with
      | none => s
      | some d => _startKeepAliveInterval { s with _load := some d.resolve }

/-- Lines 162-168, the callback of the jQuery injection. -/
def onEvaluateJQuery (s : Agent) (response : Response) : Agent :=
  if truthy response.error || truthy response.wasThrown then
    match s._load with
    | none => s
    | some d => { s with _load := some (d.reject response.error) }
  else
    match getProp response.result "objectId" with
    | .error _ => s
    | .ok objectId => { s with _jQueryRemoteObjectId := objectId }

/-- Lines 142-169: the two `Runtime.evaluate` requests, each with its
callback. -/
def _onLoadEventFired (env : Env) (s : Agent) : Agent :=
  let command := "window._LD=" ++ env.RemoteFunctions ++ "(" ++ env.experimental ++ ");"
  let s := { s with evaluations := s.evaluations ++ [Evaluation.mk command .remoteFunctions] }
  let command := env.jQueryRemoteSrc ++ "window._LDjQuery=jQuery.noConflict(true);"
  { s with evaluations := s.evaluations ++ [Evaluation.mk command .jQuery] }

/-- Lines 172-179: a fresh deferred, and the three handlers subscribed once
more under the `.RemoteAgent` namespace. -/
def load (s : Agent) : Agent :=
  { s with _load := some .pending, subscriptions := s.subscriptions + 1 }

/-- Lines 182-186: every `.RemoteAgent` handler is removed and the heartbeat
stopped. -/
def unload (s : Agent) : Agent :=
  _stopKeepAliveInterval { s with subscriptions := 0 }

/-! ## Event relay -/

/-- LineTerminator of the regular-expression grammar, which `.` never
matches: LF, CR, LS, PS. -/
def isLineTerminator (c : Char) : Bool :=
  c.toNat = 10 || c.toNat = 13 || c.toNat = 8232 || c.toNat = 8233

/-- Capture group 1 of `/^data-ld-(.*)/.exec(name)`, `none` when there is no
match: after the literal start, `(.*)` takes the longest run of characters up
to the first line terminator. -/
def execDataLd (name : String) : Option String :=
  if "data-ld-".data.isPrefixOf name.data then
    some ⟨(name.data.drop 8).takeWhile (fun c => !isLineTerminator c)⟩
  else none

/-- Lines 53-59. -/
def _onAttributeModified (s : Agent) (res : AttributeModified) : Agent :=
  match execDataLd res.name with
  | some event => { s with triggered := s.triggered ++ [(event, res)] }
  | none => s

/-! ## Notifications and replies -/

/-- What can happen to the agent: the two exported lifecycle functions, the
three Inspector notifications, the response to the `i`-th outstanding evaluate
request, and a tick of the interval timer `id`. -/
inductive Event where
  | load
  | unload
  | loadEventFired
  | frameStartedLoading
  | attributeModified (res : AttributeModified)
  | evaluated (i : Nat) (response : Response)
  | interval (id : Nat) (reply : Settled Val)

/-- Run a handler once for every time it is subscribed. -/
def dispatch (handler : Agent → Agent) : Nat → Agent → Agent
  | 0, s => s
  | n + 1, s => dispatch handler n (handler s)

/-- One step of the agent. -/
def step (env : Env) (s : Agent) : Event → Agent
  | .load => load s
  | .unload => unload s
  | .loadEventFired => dispatch (_onLoadEventFired env) s.subscriptions s
  | .frameStartedLoading => dispatch _onFrameStartedLoading s.subscriptions s
  | .attributeModified res =>
    dispatch (fun t => _onAttributeModified t res) s.subscriptions s
  | .evaluated i response =>
    match s.evaluations.get? i with
    | none => s
    | some e =>
      let s := { s with evaluations := s.evaluations.eraseIdx i }
      match e.callback with
      | .remoteFunctions => onEvaluateRemoteFunctions s response
      | .jQuery => onEvaluateJQuery s response
  | .interval id reply => if id ∈ s.timers then keepAlive s reply else s

/-- The agent after a sequence of events, from the freshly defined module. -/
def run (env : Env) (events : List Event) : Agent :=
  events.foldl (step env) Agent.init

/-! ## Element proxy -/

/-- Line 45. -/
def REMOTE : String := "window._LDjQuery"

/-- Lines 189-195. -/
def REMOTE_ELEMENT_METHODS : List String :=
  ["attr", "removeAttr", "before", "after", "append", "prepend", "text",
   "detach", "remove", "html"]

/-- Own property named `k` of a property list, if it holds one. -/
def findOwn : List (String × Val) → String → Option Val
  | [], _ => none
  | (k', v) :: rest, k => if k' = k then some v else findOwn rest k

/-- ToString of a primitive value, `none` for an object or a function. -/
def primitiveToString : Val → Option String
  | .undefined => some "undefined"
  | .null => some "null"
  | .bool true => some "true"
  | .bool false => some "false"
  | .num x => some (numberToString x)
  | .str s => some s
  | _ => none

/-- ToString of an object with the own properties `props` (ECMAScript 8.12.8
with hint String): the result of its `toString` method when that is a
primitive, else of its `valueOf` method, else a TypeError.  Without an own
`toString` the object inherits the one of `Object.prototype`; the inherited
`valueOf` returns the object itself, which is no primitive. -/
def objectToString (props : List (String × Val)) : Except String String :=
  let viaToString : Option Val :=
    match findOwn props "toString" with
    | none => some (.str "[object Object]")
    | some (.func _ ret) => some ret
    | some _ => none
  match viaToString.bind primitiveToString with
  | some text => .ok text
  | none =>
    match findOwn props "valueOf" with
    | some (.func _ ret) =>
      match primitiveToString ret with
      | some text => .ok text
      | none => .error "TypeError: cannot convert object to primitive value"
    | _ => .error "TypeError: cannot convert object to primitive value"

/-- ToString of a value.  The text of a function is the one
`Function.prototype.toString` gives, `sourceText id`. -/
def toStr (sourceText : Nat → String) : Val → Except String String
  | .undefined => .ok "undefined"
  | .null => .ok "null"
  | .bool true => .ok "true"
  | .bool false => .ok "false"
  | .num x => .ok (numberToString x)
  | .str s => .ok s
  | .func id _ => .ok (sourceText id)
  | .obj props => objectToString props
  | .promise _ props => objectToString props

/-- The text `Array.prototype.join` uses for one entry: the empty string for
undefined and null, ToString otherwise. -/
def joinEntry (sourceText : Nat → String) : Val → Except String String
  | .undefined => .ok ""
  | .null => .ok ""
  | v => toStr sourceText v

/-- The method `Array.prototype.join`. -/
def join (sourceText : Nat → String) (xs : List Val) (sep : String) :
    Except String String :=
  match mapE (joinEntry sourceText) xs with
  | .error e => .error e
  | .ok texts => .ok (sep.intercalate texts)

/-- Fields of a `RemoteElement`. -/
structure RemoteElement where
  _dataBracketsId : String
  _evalFind : String

/-- Lines 197-202 and 224-226: the fields the constructor sets. -/
def remoteElement (dataBracketsId : String) : RemoteElement :=
  { _dataBracketsId := dataBracketsId,
    _evalFind := REMOTE ++ "(\"[data-brackets-id=\\\"" ++ dataBracketsId ++ "\\\"]\")." }

/-- Lines 211-219, the callback of `argsArray.map`. -/
def quoteString : Val → Val
  | .str s => .str ("\"" ++ s ++ "\"")
  | v => v

/-- Lines 208-222: the expressions handed to `Inspector.Runtime.evaluate`, or
the exception the string conversion of an argument throws. -/
def RemoteElement._eval (sourceText : Nat → String) (self : RemoteElement)
    (method : String) (args : List Val) : Except String (List String) :=
  let argsArray := args.map quoteString
  match join sourceText argsArray "," with
  | .error e => .error e
  | .ok joined => .ok [self._evalFind ++ method ++ "(" ++ joined ++ ")"]

/-- Lines 203-205: the own methods the constructor binds on the instance, each
name of `REMOTE_ELEMENT_METHODS` to `_eval` with that name as first argument. -/
def RemoteElement.methods (sourceText : Nat → String) (self : RemoteElement) :
    List (String × (List Val → Except String (List String))) :=
  REMOTE_ELEMENT_METHODS.map fun methodName => (methodName, self._eval sourceText methodName)

/-- The own method the constructor bound under the name `m`; `none` for a name
it did not bind, whose lookup in the source goes on to the prototype chain. -/
def RemoteElement.method (sourceText : Nat → String) (self : RemoteElement) (m : String) :
    Option (List Val → Except String (List String)) :=
  (self.methods sourceText).lookup m

/-! ## Predicates on arguments and sample inputs -/

/-- A literal argument, one the dispatcher sends by value: it is not undefined
or null, exposes no truthy `nodeId` or `objectId`, and is nothing `$.when`
waits for. -/
def isLiteral : Val → Bool
  | .bool _ => true
  | .num _ => true
  | .str _ => true
  | .func _ _ => true
  | .obj props =>
    !truthy (lookup props "nodeId") && !truthy (lookup props "objectId")
      && !isFunction (lookup props "promise")
  | _ => false

/-- An agent whose command handle is the object id `"h"`. -/
def loadedAgent : Agent := { Agent.init with _objectId := .str "h" }

/-- A callback function. -/
def sampleCallback : Val := .func 0 .undefined

/-- The resolved node the sample node reference stands for. -/
def resolvedNode : Val := .obj [("nodeId", .num (.ofNat 7)), ("objectId", .str "obj-7")]

/-- A node reference: a truthy `nodeId`, and a `resolve()` whose promise is
resolved with the node carrying its remote object id. -/
def sampleNode : Val :=
  .obj [("nodeId", .num (.ofNat 7)), ("resolve", .func 1 (.promise (.resolved resolvedNode) []))]

/-- A node reference whose `resolve()` promise is rejected. -/
def failingNode : Val :=
  .obj [("nodeId", .num (.ofNat 8)), ("resolve", .func 2 (.promise (.rejected .undefined) []))]

/-- Texts and configuration for the sample runs. -/
def sampleEnv : Env := { RemoteFunctions := "RF", jQueryRemoteSrc := "JQ;", experimental := "false" }

/-- A successful evaluate response whose result is the remote object `id`. -/
def okResponse (id : String) : Response :=
  { error := .undefined, wasThrown := .undefined, result := .obj [("objectId", .str id)] }

/-- An evaluate response carrying the error `"boom"`. -/
def errorResponse : Response :=
  { error := .str "boom", wasThrown := .undefined, result := .undefined }

/-- The arguments a proxy method supports: strings, numbers and booleans. -/
def isPrimitive : Val → Bool
  | .str _ => true
  | .num _ => true
  | .bool _ => true
  | _ => false

/-- Argument serialization in the words of the specification: a string is
wrapped in double quotes, a boolean or a number is interpolated as it is. -/
def specSerialize : Val → String
  | .str s => "\"" ++ s ++ "\""
  | .bool true => "true"
  | .bool false => "false"
  | .num x => numberToString x
  | _ => ""

/-- Value of a run of decimal digits. -/
def readDigits (cs : List Char) : Nat :=
  cs.foldl (fun acc c => acc * 10 + (c.toNat - 48)) 0

/-- Value of the exponent part of a decimal literal: nothing, or `e`, a sign
and digits. -/
def readExponent : List Char → Option Int
  | [] => some 0
  | c :: sign :: ds =>
    if c = 'e' ∧ ds ≠ [] ∧ ds.all Char.isDigit = true then
      if sign = '+' then some (readDigits ds)
      else if sign = '-' then some (-(readDigits ds : Int))
      else none
    else none
  | _ => none

/-- What a decimal literal denotes: for digits, an optional fraction and an
optional exponent, the pair `(m, e)` standing for `m * 10 ^ e`. -/
def readDecimal (cs : List Char) : Option (Nat × Int) :=
  let whole := cs.takeWhile Char.isDigit
  let rest := cs.dropWhile Char.isDigit
  let fraction :=
    match rest with
    | c :: r => if c = '.' then r.takeWhile Char.isDigit else []
    | [] => []
  let tail :=
    match rest with
    | c :: r => if c = '.' then r.dropWhile Char.isDigit else rest
    | [] => []
  if whole = [] then none
  else
    match readExponent tail with
    | none => none
    | some e => some (readDigits (whole ++ fraction), e - fraction.length)

/-- What the text of a number denotes in an expression: whether it is negated,
and the pair `(m, e)` its decimal literal stands for. -/
def readNumber (text : String) : Option (Bool × Nat × Int) :=
  match text.data with
  | c :: cs =>
    if c = '-' then (readDecimal cs).map (fun p => (true, p))
    else (readDecimal (c :: cs)).map (fun p => (false, p))
  | [] => none

/-! ## The dispatcher -/

theorem mapE_ok {β : Type} (f : Val → Except String β) (g : Val → β) (l : List Val)
    (h : ∀ a ∈ l, f a = .ok (g a)) : mapE f l = .ok (l.map g) := by
  induction l with
  | nil => rfl
  | cons a rest ih =>
    have ha := h a (List.mem_cons_self a rest)
    have hrest := ih (fun b hb => h b (List.mem_cons_of_mem a hb))
    simp [mapE, ha, hrest]

theorem resolveNode_literal (a : Val) (h : isLiteral a = true) : resolveNode a = .ok a := by
  cases a <;> simp_all [isLiteral, resolveNode, getProp, truthy]

theorem subscribe_literal (a : Val) (h : isLiteral a = true) :
    subscribe a = .ok (.resolved a) := by
  cases a with
  | obj props =>
    simp only [isLiteral, Bool.and_eq_true, Bool.not_eq_true'] at h
    unfold subscribe
    cases hp : lookup props "promise" <;> simp_all [isFunction]
  | _ => simp_all [isLiteral, subscribe]

theorem toParam_literal (a : Val) (h : isLiteral a = true) : toParam a = .ok (.value a) := by
  cases a <;> simp_all [isLiteral, toParam, getProp, truthy]

theorem all_isResolved_map (l : List Val) :
    (l.map (fun a => (Settled.resolved a : Settled Val))).all Settled.isResolved = true := by
  induction l with
  | nil => rfl
  | cons a rest _ => simp [Settled.isResolved]

/-- A list of literals goes through `_call` unchanged and is sent by value. -/
theorem _call_literals (reply : Settled Val) (objectId : Val) (method : String)
    (callback : Val) (args varargs : List Val) (hd : detachCallback varargs = (callback, args))
    (hlit : ∀ a ∈ args, isLiteral a = true) :
    _call reply objectId method varargs =
      ⟨if truthy objectId then [] else [assertMessage],
       [⟨objectId, method, args.map Param.value, callback⟩], .promise reply⟩ := by
  have h1 : mapE resolveNode args = .ok (args.map id) :=
    mapE_ok resolveNode id args (fun a ha => resolveNode_literal a (hlit a ha))
  have h2 : mapE subscribe args = .ok (args.map Settled.resolved) :=
    mapE_ok subscribe Settled.resolved args (fun a ha => subscribe_literal a (hlit a ha))
  have h3 : mapE toParam args = .ok (args.map Param.value) :=
    mapE_ok toParam Param.value args (fun a ha => toParam_literal a (hlit a ha))
  simp only [List.map_id] at h1
  simp [_call, hd, h1, whenDone, h2, h3, all_isResolved_map]

theorem detachCallback_plain (args : List Val)
    (h : ∀ f ∈ args.getLast?, isFunction f = false) :
    detachCallback args = (.undefined, args) := by
  unfold detachCallback
  cases hl : args.getLast? with
  | none => rfl
  | some f => simp [h f (by simp [hl])]

theorem detachCallback_concat (init : List Val) (id : Nat) (ret : Val) :
    detachCallback (init ++ [.func id ret]) = (.func id ret, init) := by
  simp [detachCallback, isFunction]

/-- C1 (as stated, refuted): four calls without a node reference and with the
command handle set.  A trailing function is detached as the callback, so the
parameter list of `call("m", f)` is empty; an object carrying an `objectId` is
sent by reference; a `null` argument throws before anything is issued; a
pending promise argument leaves the call waiting with nothing issued. -/
theorem call_literals_counterexample :
    call loadedAgent .pending "m" [sampleCallback]
        = ⟨[], [⟨.str "h", "_LD.m", [], sampleCallback⟩], .promise .pending⟩
      ∧ call loadedAgent .pending "m" [.obj [("objectId", .str "o")]]
        = ⟨[], [⟨.str "h", "_LD.m", [.objectId (.str "o")], .undefined⟩], .promise .pending⟩
      ∧ call loadedAgent .pending "m" [.null]
        = ⟨[], [], .threw "TypeError: cannot read property of null"⟩
      ∧ call loadedAgent (.resolved .undefined) "m" [.promise .pending []]
        = ⟨[], [], .promise .pending⟩ := by
  refine ⟨rfl, rfl, rfl, rfl⟩

/-- C1 (amended): with the command handle set and every argument a literal
sent by value, `call(m, a_1, ..., a_n)` issues exactly one `callFunctionOn`,
on the command handle with method `"_LD." + m`.  When the last argument is not
a function the parameters are `{value: a_i}` for every argument, in order;
when it is a function it is detached as the callback and the parameters are
`{value: a_i}` for the arguments before it. -/
theorem call_literals (s : Agent) (reply : Settled Val) (m : String) (args : List Val)
    (hset : truthy s._objectId = true) (hlit : ∀ a ∈ args, isLiteral a = true) :
    ((∀ f ∈ args.getLast?, isFunction f = false) →
        call s reply m args =
          ⟨[], [⟨s._objectId, "_LD." ++ m, args.map Param.value, .undefined⟩],
           .promise reply⟩)
      ∧ (∀ (init : List Val) (id : Nat) (ret : Val), args = init ++ [.func id ret] →
        call s reply m args =
          ⟨[], [⟨s._objectId, "_LD." ++ m, init.map Param.value, .func id ret⟩],
           .promise reply⟩) := by
  constructor
  · intro hlast
    have h := _call_literals reply s._objectId ("_LD." ++ m) .undefined args args
      (detachCallback_plain args hlast) hlit
    simpa [call, hset] using h
  · intro init id ret hargs
    subst hargs
    have h := _call_literals reply s._objectId ("_LD." ++ m) (.func id ret) init
      (init ++ [.func id ret]) (detachCallback_concat init id ret)
      (fun a ha => hlit a (List.mem_append_left _ ha))
    simpa [call, hset] using h

/-- C1 witness: `call("m", 1, "x", true)`. -/
theorem call_literals_witness :
    call loadedAgent .pending "m" [.num (.ofNat 1), .str "x", .bool true]
        = ⟨[], [⟨.str "h", "_LD.m",
                 [.value (.num (.ofNat 1)), .value (.str "x"), .value (.bool true)],
                 .undefined⟩], .promise .pending⟩ :=
  (call_literals loadedAgent .pending "m" [.num (.ofNat 1), .str "x", .bool true] rfl
    (by simp [isLiteral])).1 (by simp [isFunction])

/-- The promise `_call` returns is rejected only by a rejected reply to the
one `callFunctionOn` it issued. -/
theorem _call_rejected_only_by_reply (reply : Settled Val) (objectId : Val)
    (method : String) (varargs : List Val) (e : Val)
    (h : (_call reply objectId method varargs).returned = .promise (.rejected e)) :
    reply = .rejected e ∧ (_call reply objectId method varargs).issued.length = 1 := by
  revert h
  simp only [_call]
  cases detachCallback varargs with
  | mk callback rest =>
    simp only
    cases mapE resolveNode rest with
    | error e => simp
    | ok resolved =>
      simp only
      cases whenDone resolved with
      | error e => simp
      | ok b =>
        cases b with
        | false => simp
        | true =>
          simp only
          cases mapE toParam resolved <;> simp

/-- C2 (the code at the failing input): the node reference `sampleNode`
resolves to a node carrying object id `"obj-7"`, yet `_call` builds its
parameter from the promise `resolve()` returned, which has no `objectId`, and
sends that promise by value. -/
theorem _call_node_sent_by_value :
    _call .pending (.str "h") "_LD.highlight" [sampleNode]
      = ⟨[], [⟨.str "h", "_LD.highlight",
                [.value (.promise (.resolved resolvedNode) [])], .undefined⟩],
         .promise .pending⟩ := by
  rfl

/-- C3 (the code at the failing input): the resolution of `failingNode`
rejects; nothing is issued, and the promise `_call` returns stays pending
whatever the Inspector would have replied, since only the reply to
`callFunctionOn` ever settles it. -/
theorem _call_rejected_resolution_pending :
    _call (.rejected .undefined) (.str "h") "_LD.highlight" [.num (.ofNat 1), failingNode]
      = ⟨[], [], .promise .pending⟩ := by
  rfl

/-- C4 (as stated, refuted): before any load the command handle is undefined;
`call("keepAlive")` reports the failed assertion and then issues
`callFunctionOn` with the undefined target. -/
theorem call_unset_handle_counterexample :
    call Agent.init .pending "keepAlive" []
      = ⟨[assertMessage], [⟨.undefined, "_LD.keepAlive", [], .undefined⟩],
         .promise .pending⟩ := by
  rfl

/-- C4 (amended): a call made while the command handle is unset reports the
assertion failure on the console and then runs exactly as it would with a
handle `t` set: the same operations are issued, with the unset handle as their
target, and the same promise or exception results. -/
theorem call_unset_handle (s : Agent) (reply : Settled Val) (m : String) (args : List Val)
    (t : Val) (hunset : truthy s._objectId = false) :
    (call s reply m args).asserts = [assertMessage]
      ∧ (call s reply m args).issued =
          (call { s with _objectId := t } reply m args).issued.map
            (fun op => { op with objectId := s._objectId })
      ∧ (call s reply m args).returned
          = (call { s with _objectId := t } reply m args).returned := by
  simp only [call, _call, hunset]
  cases detachCallback args with
  | mk callback rest =>
    simp only
    cases mapE resolveNode rest with
    | error e => simp
    | ok resolved =>
      simp only
      cases whenDone resolved with
      | error e => simp
      | ok b =>
        cases b with
        | false => simp
        | true =>
          simp only
          cases mapE toParam resolved <;> simp

/-- C4 witness: `call("setConfig", 3)` before any load, against the same call
with handle `"h"`. -/
theorem call_unset_handle_witness :
    (call Agent.init .pending "setConfig" [.num (.ofNat 3)]).asserts = [assertMessage]
      ∧ (call Agent.init .pending "setConfig" [.num (.ofNat 3)]).issued =
          (call { Agent.init with _objectId := .str "h" } .pending "setConfig"
              [.num (.ofNat 3)]).issued.map
            (fun op => { op with objectId := Agent.init._objectId })
      ∧ (call Agent.init .pending "setConfig" [.num (.ofNat 3)]).returned
          = (call { Agent.init with _objectId := .str "h" } .pending "setConfig"
              [.num (.ofNat 3)]).returned :=
  call_unset_handle Agent.init .pending "setConfig" [.num (.ofNat 3)] (.str "h") rfl

/-- C10: `jQuery(m, a, b, ...)` is `_call(_jQueryRemoteObjectId, "_LDjQuery." +
m, a)`, whatever follows `a`; `jQuery(m)` is that call with the argument list
`[undefined]`, which is not the call with an empty list: the first throws on
reading `undefined.objectId`, the second issues `callFunctionOn`. -/
theorem jQueryRemote_forwards_one (s : Agent) (reply : Settled Val) (m : String)
    (a : Val) (rest : List Val) :
    jQueryRemote s reply m (a :: rest)
        = _call reply s._jQueryRemoteObjectId ("_LDjQuery." ++ m) [a]
      ∧ jQueryRemote s reply m []
        = _call reply s._jQueryRemoteObjectId ("_LDjQuery." ++ m) [.undefined]
      ∧ (jQueryRemote s reply m []).issued = []
      ∧ (_call reply s._jQueryRemoteObjectId ("_LDjQuery." ++ m) []).issued
        = [⟨s._jQueryRemoteObjectId, "_LDjQuery." ++ m, [], .undefined⟩] := by
  refine ⟨rfl, rfl, rfl, rfl⟩

/-! ## The heartbeat invariant -/

/-- The interval timers of `window` are exactly the one recorded in
`_intervalId`, and every handle handed out so far is positive and below the
next one. -/
def HeartbeatInv (s : Agent) : Prop :=
  s.timers = s._intervalId.toList ∧ 0 < s.nextTimer
    ∧ ∀ id ∈ s.timers, 0 < id ∧ id < s.nextTimer

theorem HeartbeatInv.of_eq {s t : Agent} (h : HeartbeatInv s) (h1 : t.timers = s.timers)
    (h2 : t._intervalId = s._intervalId) (h3 : t.nextTimer = s.nextTimer) :
    HeartbeatInv t := by
  unfold HeartbeatInv at *
  rw [h1, h2, h3]
  exact h

theorem stop_of_inv (s : Agent) (h : HeartbeatInv s) :
    (_stopKeepAliveInterval s).timers = [] ∧ (_stopKeepAliveInterval s)._intervalId = none
      ∧ (_stopKeepAliveInterval s).nextTimer = s.nextTimer := by
  obtain ⟨ht, _, hid⟩ := h
  unfold _stopKeepAliveInterval
  cases hi : s._intervalId with
  | none => simp [hi] at ht; simp [ht, hi]
  | some id =>
    simp [hi] at ht
    have hpos : 0 < id := (hid id (by simp [ht])).1
    have hne : id ≠ 0 := Nat.pos_iff_ne_zero.mp hpos
    simp [hne, clearInterval, ht]

theorem HeartbeatInv.stop {s : Agent} (h : HeartbeatInv s) :
    HeartbeatInv (_stopKeepAliveInterval s) := by
  obtain ⟨h1, h2, h3⟩ := stop_of_inv s h
  refine ⟨by rw [h1, h2]; rfl, by rw [h3]; exact h.2.1, ?_⟩
  intro id hid
  rw [h1] at hid
  cases hid

theorem start_of_inv (s : Agent) (h : HeartbeatInv s) :
    (_startKeepAliveInterval s).timers = [s.nextTimer]
      ∧ (_startKeepAliveInterval s)._intervalId = some s.nextTimer
      ∧ (_startKeepAliveInterval s).nextTimer = s.nextTimer + 1 := by
  obtain ⟨h1, h2, h3⟩ := stop_of_inv s h
  simp [_startKeepAliveInterval, h1, h3]

theorem HeartbeatInv.start {s : Agent} (h : HeartbeatInv s) :
    HeartbeatInv (_startKeepAliveInterval s) := by
  obtain ⟨h1, h2, h3⟩ := start_of_inv s h
  refine ⟨by rw [h1, h2]; rfl, by rw [h3]; omega, ?_⟩
  intro id hid
  rw [h1] at hid
  simp at hid
  subst hid
  rw [h3]
  exact ⟨h.2.1, by omega⟩

theorem HeartbeatInv.dispatch {handler : Agent → Agent}
    (hh : ∀ s, HeartbeatInv s → HeartbeatInv (handler s)) (n : Nat) :
    ∀ s, HeartbeatInv s → HeartbeatInv (dispatch handler n s) := by
  induction n with
  | zero => intro s h; exact h
  | succ n ih => intro s h; exact ih (handler s) (hh s h)

theorem HeartbeatInv.onEvaluateRemoteFunctions {s : Agent} (h : HeartbeatInv s)
    (response : Response) : HeartbeatInv (onEvaluateRemoteFunctions s response) := by
  unfold RemoteAgent.onEvaluateRemoteFunctions
  split
  · cases hl : s._load with
    | none => simpa using h
    | some d => exact h.of_eq rfl rfl rfl
  · cases getProp response.result "objectId" with
    | error e => exact h
    | ok objectId =>
      cases hl : s._load with
      | none => simp only [hl]; exact h.of_eq rfl rfl rfl
      | some d =>
        simp only [hl]
        exact HeartbeatInv.start (h.of_eq rfl rfl rfl)

theorem HeartbeatInv.onEvaluateJQuery {s : Agent} (h : HeartbeatInv s)
    (response : Response) : HeartbeatInv (onEvaluateJQuery s response) := by
  unfold RemoteAgent.onEvaluateJQuery
  split
  · cases hl : s._load with
    | none => simpa using h
    | some d => exact h.of_eq rfl rfl rfl
  · cases getProp response.result "objectId" with
    | error e => exact h
    | ok objectId => exact h.of_eq rfl rfl rfl

theorem HeartbeatInv.onAttributeModified {s : Agent} (h : HeartbeatInv s)
    (res : AttributeModified) : HeartbeatInv (_onAttributeModified s res) := by
  unfold _onAttributeModified
  cases execDataLd res.name with
  | none => exact h
  | some event => exact h.of_eq rfl rfl rfl

theorem HeartbeatInv.step (env : Env) {s : Agent} (h : HeartbeatInv s) (e : Event) :
    HeartbeatInv (step env s e) := by
  cases e with
  | load => exact h.of_eq rfl rfl rfl
  | unload =>
    have h0 : HeartbeatInv { s with subscriptions := 0 } := h.of_eq rfl rfl rfl
    exact h0.stop
  | loadEventFired =>
    have hh : ∀ t, HeartbeatInv t → HeartbeatInv (_onLoadEventFired env t) :=
      fun t ht => ht.of_eq rfl rfl rfl
    exact HeartbeatInv.dispatch hh _ s h
  | frameStartedLoading =>
    have hh : ∀ t, HeartbeatInv t → HeartbeatInv (_onFrameStartedLoading t) :=
      fun t ht => ht.stop
    exact HeartbeatInv.dispatch hh _ s h
  | attributeModified res =>
    have hh : ∀ t, HeartbeatInv t → HeartbeatInv (_onAttributeModified t res) :=
      fun t ht => ht.onAttributeModified res
    exact HeartbeatInv.dispatch hh _ s h
  | evaluated i response =>
    simp only [RemoteAgent.step]
    cases s.evaluations.get? i with
    | none => exact h
    | some ev =>
      have h0 : HeartbeatInv { s with evaluations := s.evaluations.eraseIdx i } :=
        h.of_eq rfl rfl rfl
      cases hc : ev.callback with
      | remoteFunctions => simp only [hc]; exact h0.onEvaluateRemoteFunctions response
      | jQuery => simp only [hc]; exact h0.onEvaluateJQuery response
  | interval id reply =>
    simp only [RemoteAgent.step]
    split
    · exact h.of_eq rfl rfl rfl
    · exact h

theorem HeartbeatInv.foldl (env : Env) (events : List Event) :
    ∀ s, HeartbeatInv s → HeartbeatInv (events.foldl (RemoteAgent.step env) s) := by
  induction events with
  | nil => intro s h; exact h
  | cons e rest ih => intro s h; exact ih _ (h.step env e)

/-- Every state the agent reaches satisfies the heartbeat invariant. -/
theorem run_inv (env : Env) (events : List Event) : HeartbeatInv (run env events) :=
  HeartbeatInv.foldl env events Agent.init ⟨rfl, by decide, by intro id hid; cases hid⟩

/-! ## Lifecycle and heartbeat -/

theorem stop_handles (s : Agent) :
    (_stopKeepAliveInterval s)._objectId = s._objectId
      ∧ (_stopKeepAliveInterval s)._jQueryRemoteObjectId = s._jQueryRemoteObjectId := by
  unfold _stopKeepAliveInterval
  cases s._intervalId with
  | none => exact ⟨rfl, rfl⟩
  | some id => by_cases h : id = 0 <;> simp [h, clearInterval]

theorem stop_idle (s : Agent) (h : s._intervalId = none) : _stopKeepAliveInterval s = s := by
  simp [_stopKeepAliveInterval, h]

theorem dispatch_idle (n : Nat) :
    ∀ s, s._intervalId = none → dispatch _onFrameStartedLoading n s = s := by
  induction n with
  | zero => intro s _; rfl
  | succ n ih =>
    intro s h
    have hs : _onFrameStartedLoading s = s := stop_idle s h
    simp only [dispatch, hs]
    exact ih s h

theorem dispatch_stop (n : Nat) (s : Agent) (h : HeartbeatInv s) (hn : 0 < n) :
    dispatch _onFrameStartedLoading n s = _stopKeepAliveInterval s := by
  cases n with
  | zero => omega
  | succ n => exact dispatch_idle n (_stopKeepAliveInterval s) (stop_of_inv s h).2.1

/-- C5 (as stated, refuted): after `load()` and a load-complete notification
the `load()` future is pending; the error response to the jQuery injection,
the second evaluate request, rejects it. -/
theorem jQuery_injection_counterexample :
    (run sampleEnv [.load, .loadEventFired])._load = some .pending
      ∧ (run sampleEnv [.load, .loadEventFired, .evaluated 1 errorResponse])._load
        = some (.rejected (.str "boom")) := by
  exact ⟨rfl, rfl⟩

/-- C5 (amended): when the response to a jQuery injection arrives, a
successful response leaves the `load()` future as it is; an error or thrown
response rejects it with the error when it is still pending and leaves it as
it is once settled; in no case does the response resolve it. -/
theorem jQuery_injection_load (env : Env) (s : Agent) (i : Nat) (e : Evaluation)
    (response : Response) (hi : s.evaluations.get? i = some e) (hj : e.callback = .jQuery) :
    ((truthy response.error || truthy response.wasThrown) = false →
        (step env s (.evaluated i response))._load = s._load)
      ∧ ((truthy response.error || truthy response.wasThrown) = true →
          s._load = some .pending →
        (step env s (.evaluated i response))._load = some (.rejected response.error))
      ∧ ((truthy response.error || truthy response.wasThrown) = true →
          s._load ≠ some .pending →
        (step env s (.evaluated i response))._load = s._load)
      ∧ ((step env s (.evaluated i response))._load = some .resolved →
        s._load = some .resolved) := by
  simp only [step, hi, hj, onEvaluateJQuery]
  cases hf : (truthy response.error || truthy response.wasThrown) with
  | false =>
    cases getProp response.result "objectId" <;> simp
  | true =>
    cases hl : s._load with
    | none => simp
    | some d => cases d <;> simp [LoadState.reject]

/-- C5 witness: the jQuery injection of a first load, answered with an error
while the `load()` future is pending. -/
theorem jQuery_injection_load_witness :
    (run sampleEnv [.load, .loadEventFired]).evaluations.get? 1
        = some (Evaluation.mk "JQ;window._LDjQuery=jQuery.noConflict(true);" .jQuery)
      ∧ (step sampleEnv (run sampleEnv [.load, .loadEventFired])
          (.evaluated 1 errorResponse))._load = some (.rejected (.str "boom")) :=
  ⟨rfl, (jQuery_injection_load sampleEnv (run sampleEnv [.load, .loadEventFired]) 1
    (Evaluation.mk "JQ;window._LDjQuery=jQuery.noConflict(true);" .jQuery) errorResponse
    rfl rfl).2.1 rfl rfl⟩

/-- C6 (as stated, refuted): once both injections have answered, a
navigation-start notification, and likewise `unload()`, leaves the command
handle and the utility handle set. -/
theorem invalidation_counterexample :
    (run sampleEnv [.load, .loadEventFired, .evaluated 0 (okResponse "ld"),
        .evaluated 0 (okResponse "jq"), .frameStartedLoading])._objectId = .str "ld"
      ∧ (run sampleEnv [.load, .loadEventFired, .evaluated 0 (okResponse "ld"),
        .evaluated 0 (okResponse "jq"), .frameStartedLoading])._jQueryRemoteObjectId
          = .str "jq"
      ∧ (run sampleEnv [.load, .loadEventFired, .evaluated 0 (okResponse "ld"),
        .evaluated 0 (okResponse "jq"), .unload])._objectId = .str "ld"
      ∧ (run sampleEnv [.load, .loadEventFired, .evaluated 0 (okResponse "ld"),
        .evaluated 0 (okResponse "jq"), .unload])._jQueryRemoteObjectId = .str "jq" := by
  exact ⟨rfl, rfl, rfl, rfl⟩

/-- C6 (amended): from every reachable state, after a navigation-start
notification is handled and after `unload()` returns, the heartbeat is
stopped (no interval timer is active and `_intervalId` is unset) and the
command handle and the utility handle keep the values they had. -/
theorem invalidation_stops_heartbeat (env : Env) (events : List Event) :
    ((_onFrameStartedLoading (run env events)).timers = []
        ∧ (_onFrameStartedLoading (run env events))._intervalId = none
        ∧ (_onFrameStartedLoading (run env events))._objectId = (run env events)._objectId
        ∧ (_onFrameStartedLoading (run env events))._jQueryRemoteObjectId
          = (run env events)._jQueryRemoteObjectId)
      ∧ (0 < (run env events).subscriptions →
          step env (run env events) .frameStartedLoading
            = _onFrameStartedLoading (run env events))
      ∧ ((step env (run env events) .unload).timers = []
        ∧ (step env (run env events) .unload)._intervalId = none
        ∧ (step env (run env events) .unload)._objectId = (run env events)._objectId
        ∧ (step env (run env events) .unload)._jQueryRemoteObjectId
          = (run env events)._jQueryRemoteObjectId) := by
  have h := run_inv env events
  have h0 : HeartbeatInv { run env events with subscriptions := 0 } := h.of_eq rfl rfl rfl
  refine ⟨⟨(stop_of_inv _ h).1, (stop_of_inv _ h).2.1, (stop_handles _).1, (stop_handles _).2⟩,
    fun hn => dispatch_stop _ _ h hn,
    ⟨(stop_of_inv _ h0).1, (stop_of_inv _ h0).2.1, (stop_handles _).1, (stop_handles _).2⟩⟩

/-- C9: in every state reached by any sequence of `load()`, `unload()`,
notifications, injection responses and timer ticks, at most one interval timer
is active and it is the one recorded in `_intervalId`; starting the heartbeat
there leaves exactly one timer active, the new one, and none of the timers
that were active before. -/
theorem heartbeat_at_most_one (env : Env) (events : List Event) :
    (run env events).timers.length ≤ 1
      ∧ (∀ id ∈ (run env events).timers, (run env events)._intervalId = some id)
      ∧ (_startKeepAliveInterval (run env events)).timers
          = (_startKeepAliveInterval (run env events))._intervalId.toList
      ∧ (_startKeepAliveInterval (run env events)).timers.length = 1
      ∧ (∀ id ∈ (run env events).timers,
          id ∉ (_startKeepAliveInterval (run env events)).timers) := by
  have h := run_inv env events
  obtain ⟨h1, h2, h3⟩ := start_of_inv _ h
  obtain ⟨ht, _, hlt⟩ := h
  refine ⟨?_, ?_, by rw [h1, h2]; rfl, by rw [h1]; rfl, ?_⟩
  · rw [ht]; cases (run env events)._intervalId <;> simp
  · intro id hid
    rw [ht] at hid
    cases hi : (run env events)._intervalId with
    | none => simp [hi] at hid
    | some j => simp [hi] at hid; simp [hid]
  · intro id hid
    rw [h1]
    have := (hlt id hid).2
    simp
    omega

/-- Two `load()` calls with no `unload()` between them subscribe the
load-complete handler twice, so one notification starts the heartbeat twice;
the second start cancels the first timer. -/
theorem double_load_one_timer :
    (run sampleEnv [.load, .load, .loadEventFired, .evaluated 0 (okResponse "ld")]).timers
        = [1]
      ∧ (run sampleEnv [.load, .load, .loadEventFired, .evaluated 0 (okResponse "ld"),
          .evaluated 1 (okResponse "ld")]).timers = [2] := by
  exact ⟨rfl, rfl⟩

/-! ## Printing and reading numbers -/

theorem digitChar_isDigit (d : Nat) (h : d < 10) :
    (Nat.digitChar d).isDigit = true ∧ (Nat.digitChar d).toNat - 48 = d := by
  interval_cases d <;> exact ⟨by decide, by decide⟩

theorem toDigitsCore_append (f : Nat) :
    ∀ n acc, Nat.toDigitsCore 10 f n acc = Nat.toDigitsCore 10 f n [] ++ acc := by
  induction f with
  | zero => intro n acc; simp [Nat.toDigitsCore]
  | succ f ih =>
    intro n acc
    simp only [Nat.toDigitsCore]
    split
    · simp
    · rw [ih _ (_ :: acc), ih _ [_]]
      simp

theorem toDigitsCore_isDigit (f : Nat) :
    ∀ n, ∀ c ∈ Nat.toDigitsCore 10 f n [], c.isDigit = true := by
  induction f with
  | zero => intro n c hc; simp [Nat.toDigitsCore] at hc
  | succ f ih =>
    intro n c hc
    simp only [Nat.toDigitsCore] at hc
    have hd := (digitChar_isDigit (n % 10) (Nat.mod_lt _ (by decide))).1
    split at hc
    · simp at hc; rw [hc]; exact hd
    · rw [toDigitsCore_append] at hc
      simp at hc
      rcases hc with hc | hc
      · exact ih _ c hc
      · rw [hc]; exact hd

theorem toDigits_isDigit (s : Nat) : ∀ c ∈ Nat.toDigits 10 s, c.isDigit = true :=
  toDigitsCore_isDigit _ s

theorem toDigits_ne_nil (s : Nat) : Nat.toDigits 10 s ≠ [] := by
  unfold Nat.toDigits
  simp only [Nat.toDigitsCore]
  split
  · simp
  · rw [toDigitsCore_append]; simp

theorem foldl_toDigitsCore (f : Nat) :
    ∀ n acc, n < f →
      (Nat.toDigitsCore 10 f n acc).foldl (fun a c => a * 10 + (c.toNat - 48)) 0
        = acc.foldl (fun a c => a * 10 + (c.toNat - 48)) n := by
  induction f with
  | zero => intro n acc h; omega
  | succ f ih =>
    intro n acc h
    simp only [Nat.toDigitsCore]
    have hd := (digitChar_isDigit (n % 10) (Nat.mod_lt _ (by decide))).2
    split
    · rename_i h0
      simp only [List.foldl_cons, hd]
      congr 1
      omega
    · rename_i h0
      rw [ih (n / 10) _ (by omega)]
      simp only [List.foldl_cons, hd]
      congr 1
      omega

theorem readDigits_toDigits (s : Nat) : readDigits (Nat.toDigits 10 s) = s := by
  unfold readDigits Nat.toDigits
  rw [foldl_toDigitsCore (s + 1) s [] (by omega)]
  rfl

theorem foldl_digits_shift (cs : List Char) :
    ∀ a, cs.foldl (fun a c => a * 10 + (c.toNat - 48)) a
      = a * 10 ^ cs.length + cs.foldl (fun a c => a * 10 + (c.toNat - 48)) 0 := by
  induction cs with
  | nil => intro a; simp
  | cons c cs ih =>
    intro a
    simp only [List.foldl_cons, List.length_cons]
    rw [ih (a * 10 + (c.toNat - 48)), ih (0 * 10 + (c.toNat - 48))]
    ring

theorem readDigits_append (xs ys : List Char) :
    readDigits (xs ++ ys) = readDigits xs * 10 ^ ys.length + readDigits ys := by
  unfold readDigits
  rw [List.foldl_append, foldl_digits_shift]

theorem readDigits_zeros (j : Nat) : readDigits (List.replicate j '0') = 0 := by
  induction j with
  | zero => rfl
  | succ j ih =>
    rw [List.replicate_succ]
    have : readDigits ('0' :: List.replicate j '0')
        = readDigits (['0'] ++ List.replicate j '0') := rfl
    rw [this, readDigits_append, ih]
    simp [readDigits]

theorem zeros_isDigit (j : Nat) : ∀ c ∈ List.replicate j '0', c.isDigit = true := by
  intro c hc
  rw [List.eq_of_mem_replicate hc]
  decide

theorem takeWhile_digits (xs rest : List Char) (hx : ∀ c ∈ xs, c.isDigit = true)
    (hr : ∀ c ∈ rest.head?, c.isDigit = false) :
    (xs ++ rest).takeWhile Char.isDigit = xs ∧ (xs ++ rest).dropWhile Char.isDigit = rest := by
  rw [List.takeWhile_append_of_pos hx, List.dropWhile_append_of_pos hx]
  cases rest with
  | nil => simp
  | cons c r =>
    have hc : c.isDigit = false := hr c (by simp)
    simp [List.takeWhile_cons, List.dropWhile_cons, hc]

theorem readExponent_text (e : Int) : readExponent ('e' :: exponentText e) = some e := by
  have hne := toDigits_ne_nil e.natAbs
  have hall : (Nat.toDigits 10 e.natAbs).all Char.isDigit = true := by
    rw [List.all_eq_true]; exact toDigits_isDigit _
  by_cases he : e < 0
  · have h1 : ('-' : Char) ≠ '+' := by decide
    simp only [exponentText, he, if_true, readExponent, hne, hall, ne_eq, not_false_eq_true,
      and_self, h1, if_false, readDigits_toDigits]
    congr 1
    omega
  · simp only [exponentText, he, if_false, readExponent, hne, hall, ne_eq, not_false_eq_true,
      and_self, if_true, readDigits_toDigits]
    congr 1
    omega

theorem readDecimal_whole (whole : List Char) (hw : whole ≠ [])
    (hd : ∀ c ∈ whole, c.isDigit = true) :
    readDecimal whole = some (readDigits whole, 0) := by
  have h := takeWhile_digits whole [] hd (by simp)
  simp only [List.append_nil] at h
  simp [readDecimal, h.1, h.2, hw, readExponent]

theorem readDecimal_fraction (whole fraction : List Char) (hw : whole ≠ [])
    (hd : ∀ c ∈ whole, c.isDigit = true) (hf : ∀ c ∈ fraction, c.isDigit = true) :
    readDecimal (whole ++ '.' :: fraction)
      = some (readDigits (whole ++ fraction), -(fraction.length : Int)) := by
  have h := takeWhile_digits whole ('.' :: fraction) hd (by simp)
  have h2 := takeWhile_digits fraction [] hf (by simp)
  simp only [List.append_nil] at h2
  simp [readDecimal, h.1, h.2, hw, h2.1, h2.2, readExponent]

theorem readDecimal_exponent (whole : List Char) (e : Int) (hw : whole ≠ [])
    (hd : ∀ c ∈ whole, c.isDigit = true) :
    readDecimal (whole ++ 'e' :: exponentText e) = some (readDigits whole, e) := by
  have h := takeWhile_digits whole ('e' :: exponentText e) hd (by simp)
  have hne : ('e' : Char) ≠ '.' := by decide
  simp [readDecimal, h.1, h.2, hw, hne, readExponent_text]

theorem readDecimal_fraction_exponent (whole fraction : List Char) (e : Int)
    (hw : whole ≠ []) (hd : ∀ c ∈ whole, c.isDigit = true)
    (hf : ∀ c ∈ fraction, c.isDigit = true) :
    readDecimal (whole ++ '.' :: (fraction ++ 'e' :: exponentText e))
      = some (readDigits (whole ++ fraction), e - fraction.length) := by
  have h := takeWhile_digits whole ('.' :: (fraction ++ 'e' :: exponentText e)) hd
    (by simp)
  have h2 := takeWhile_digits fraction ('e' :: exponentText e) hf (by simp)
  simp [readDecimal, h.1, h.2, hw, h2.1, h2.2, readExponent_text]

theorem mem_take_isDigit (ds : List Char) (j : Nat) (h : ∀ c ∈ ds, c.isDigit = true) :
    ∀ c ∈ ds.take j, c.isDigit = true :=
  fun c hc => h c (List.mem_of_mem_take hc)

theorem mem_drop_isDigit (ds : List Char) (j : Nat) (h : ∀ c ∈ ds, c.isDigit = true) :
    ∀ c ∈ ds.drop j, c.isDigit = true :=
  fun c hc => h c (List.mem_of_mem_drop hc)

theorem take_ne_nil (ds : List Char) (j : Nat) (h : ds ≠ []) (hj : 0 < j) : ds.take j ≠ [] := by
  cases ds with
  | nil => exact absurd rfl h
  | cons c cs =>
    cases j with
    | zero => omega
    | succ j => simp

theorem readDecimal_positiveText (s : Nat) (n : Int) :
    ∃ m e, readDecimal (positiveText s n) = some (m, e)
      ∧ (m : ℚ) * 10 ^ e = (s : ℚ) * 10 ^ (n - ((Nat.toDigits 10 s).length : Int)) := by
  have hne := toDigits_ne_nil s
  have hdig := toDigits_isDigit s
  have hread := readDigits_toDigits s
  have hlen : 0 < (Nat.toDigits 10 s).length := List.length_pos.mpr hne
  unfold positiveText
  simp only
  split
  · rename_i h
    refine ⟨_, _, readDecimal_whole _ (by simp [hne]) ?_, ?_⟩
    · intro c hc
      rcases List.mem_append.mp hc with hc | hc
      · exact hdig c hc
      · exact zeros_isDigit _ c hc
    · rw [readDigits_append, readDigits_zeros, hread, List.length_replicate]
      have hj : n - ((Nat.toDigits 10 s).length : Int)
          = (((n - ((Nat.toDigits 10 s).length : Int)).toNat : Nat) : Int) := by omega
      rw [hj, zpow_natCast]
      simp only [Int.toNat_ofNat]
      push_cast
      simp
  · split
    · rename_i h1 h2
      refine ⟨_, _, readDecimal_fraction _ _ (take_ne_nil _ _ hne (by omega))
        (mem_take_isDigit _ _ hdig) (mem_drop_isDigit _ _ hdig), ?_⟩
      rw [List.take_append_drop, hread, List.length_drop]
      congr 2
      omega
    · split
      · rename_i h1 h2 h3
        refine ⟨_, _, readDecimal_fraction ['0'] _ (by simp) (by simp) ?_, ?_⟩
        · intro c hc
          rcases List.mem_append.mp hc with hc | hc
          · exact zeros_isDigit _ c hc
          · exact hdig c hc
        · rw [readDigits_append, readDigits_append, readDigits_zeros, hread,
            List.length_append, List.length_replicate]
          have h0 : readDigits ['0'] = 0 := by decide
          rw [h0]
          simp only [zero_mul, zero_add]
          congr 2
          omega
      · split
        · rename_i h1 h2 h3 h4
          refine ⟨_, _, readDecimal_exponent _ _ hne hdig, ?_⟩
          rw [hread, h4]
        · rename_i h1 h2 h3 h4
          refine ⟨_, _, readDecimal_fraction_exponent _ _ _ (take_ne_nil _ _ hne (by omega))
            (mem_take_isDigit _ _ hdig) (mem_drop_isDigit _ _ hdig), ?_⟩
          rw [List.take_append_drop, hread, List.length_drop]
          congr 2
          omega

theorem readNumber_positive (cs : List Char) (p : Nat × Int) (h : readDecimal cs = some p) :
    readNumber ⟨cs⟩ = some (false, p) := by
  cases cs with
  | nil => simp [readDecimal] at h
  | cons c r =>
    by_cases hc : c = '-'
    · subst hc
      simp [readDecimal, List.takeWhile_cons] at h
    · simp [readNumber, hc, h]

theorem readNumber_negative (cs : List Char) (p : Nat × Int) (h : readDecimal cs = some p) :
    readNumber ⟨'-' :: cs⟩ = some (true, p) := by
  simp [readNumber, h]

/-- The text of a finite number reads back as that number. -/
theorem readNumber_numberToString (negative : Bool) (s : Nat) (n : Int) :
    ∃ m e, readNumber (numberToString (.finite negative s n)) = some (negative, m, e)
      ∧ (m : ℚ) * 10 ^ e = (s : ℚ) * 10 ^ (n - ((Nat.toDigits 10 s).length : Int)) := by
  obtain ⟨m, e, h, hv⟩ := readDecimal_positiveText s n
  cases negative with
  | false => exact ⟨m, e, readNumber_positive _ _ h, hv⟩
  | true => exact ⟨m, e, readNumber_negative _ _ h, hv⟩

/-! ## Element proxy -/

theorem mapE_joinEntry (sourceText : Nat → String) (args : List Val)
    (h : ∀ a ∈ args, isPrimitive a = true) :
    mapE (joinEntry sourceText) (args.map quoteString) = .ok (args.map specSerialize) := by
  induction args with
  | nil => rfl
  | cons a rest ih =>
    have hrest := ih (fun b hb => h b (List.mem_cons_of_mem a hb))
    have ha : joinEntry sourceText (quoteString a) = .ok (specSerialize a) := by
      have hp := h a (List.mem_cons_self a rest)
      cases a with
      | bool b => cases b <;> rfl
      | num x => rfl
      | str s => rfl
      | _ => simp [isPrimitive] at hp
    simp [mapE, ha, hrest]

theorem join_quoted (sourceText : Nat → String) (args : List Val)
    (h : ∀ a ∈ args, isPrimitive a = true) :
    join sourceText (args.map quoteString) ","
      = .ok (",".intercalate (args.map specSerialize)) := by
  simp [join, mapE_joinEntry sourceText args h]

theorem lookup_bound {β : Type} (f : String → β) (m : String) :
    ∀ l : List String, m ∈ l → (l.map fun x => (x, f x)).lookup m = some (f m) := by
  intro l
  induction l with
  | nil => intro h; cases h
  | cons x xs ih =>
    intro h
    by_cases hx : m = x
    · subst hx; simp [List.lookup]
    · have hm : m ∈ xs := by
        rcases List.mem_cons.mp h with h | h
        · exact absurd h hx
        · exact h
      have hb : (m == x) = false := by simp [hx]
      simp only [List.map_cons, List.lookup, hb]
      exact ih hm

/-- C7: for a marker id `d`, a method `m` of the allow-list and arguments that
are strings, numbers or booleans, `remoteElement(d).m(args...)` issues exactly
one evaluate, of the expression
`window._LDjQuery("[data-brackets-id=\"d\"]").m(S)`, where `S` joins the
arguments with `,`, strings in double quotes and the others as they are:
`true` or `false` for a boolean and, for a number, `NaN`, `Infinity`,
`-Infinity`, `0`, or for a finite nonzero number a decimal text that denotes
that same number, with its sign. -/
theorem remoteElement_expression (sourceText : Nat → String) (d m : String)
    (args : List Val) (hm : m ∈ REMOTE_ELEMENT_METHODS)
    (hargs : ∀ a ∈ args, isPrimitive a = true) :
    ((remoteElement d).method sourceText m).map (fun f => f args) =
        some (.ok ["window._LDjQuery(\"[data-brackets-id=\\\"" ++ d ++ "\\\"]\")." ++ m ++ "("
              ++ ",".intercalate (args.map specSerialize) ++ ")"])
      ∧ (specSerialize (.num .nan) = "NaN"
        ∧ specSerialize (.num (.infinity false)) = "Infinity"
        ∧ specSerialize (.num (.infinity true)) = "-Infinity"
        ∧ ∀ negative, specSerialize (.num (.zero negative)) = "0")
      ∧ ∀ (negative : Bool) (s : Nat) (n : Int), ∃ mantissa e,
          readNumber (specSerialize (.num (.finite negative s n)))
              = some (negative, mantissa, e)
            ∧ (mantissa : ℚ) * 10 ^ e
              = (s : ℚ) * 10 ^ (n - ((Nat.toDigits 10 s).length : Int)) := by
  refine ⟨?_, ⟨rfl, rfl, rfl, fun _ => rfl⟩, readNumber_numberToString⟩
  have hr : REMOTE ++ "(\"[data-brackets-id=\\\"" = "window._LDjQuery(\"[data-brackets-id=\\\"" := by
    decide
  have hl := lookup_bound (fun x => (remoteElement d)._eval sourceText x) m
    REMOTE_ELEMENT_METHODS hm
  unfold RemoteElement.method RemoteElement.methods
  rw [hl]
  simp only [Option.map_some', RemoteElement._eval, remoteElement,
    join_quoted sourceText args hargs, hr]

/-- C7 witness: `remoteElement("42").text("hi")`, `remoteElement("42").remove()`,
`remoteElement("42").attr("n", 5, true)` and two calls with numbers: 1e21,
1.5, -1e-7, 0.001, 1.2e24 and NaN; 1e20, 0.000001, -Infinity, -0 and 123.456. -/
theorem remoteElement_expression_witness :
    ((remoteElement "42").method (fun _ => "") "text").map (fun f => f [.str "hi"])
        = some (.ok ["window._LDjQuery(\"[data-brackets-id=\\\"42\\\"]\").text(\"hi\")"])
      ∧ ((remoteElement "42").method (fun _ => "") "remove").map (fun f => f [])
        = some (.ok ["window._LDjQuery(\"[data-brackets-id=\\\"42\\\"]\").remove()"])
      ∧ ((remoteElement "42").method (fun _ => "") "attr").map
          (fun f => f [.str "n", .num (.ofNat 5), .bool true])
        = some (.ok ["window._LDjQuery(\"[data-brackets-id=\\\"42\\\"]\").attr(\"n\",5,true)"])
      ∧ ((remoteElement "42").method (fun _ => "") "html").map
          (fun f => f [.num (.finite false 1 22), .num (.finite false 15 1),
            .num (.finite true 1 (-6)), .num (.finite false 1 (-2)),
            .num (.finite false 12 25), .num .nan])
        = some (.ok ["window._LDjQuery(\"[data-brackets-id=\\\"42\\\"]\")."
            ++ "html(1e+21,1.5,-1e-7,0.001,1.2e+24,NaN)"])
      ∧ ((remoteElement "42").method (fun _ => "") "after").map
          (fun f => f [.num (.finite false 1 21), .num (.finite false 1 (-5)),
            .num (.infinity true), .num (.zero true), .num (.finite false 123456 3)])
        = some (.ok ["window._LDjQuery(\"[data-brackets-id=\\\"42\\\"]\")."
            ++ "after(100000000000000000000,0.000001,-Infinity,0,123.456)"]) :=
  ⟨(remoteElement_expression (fun _ => "") "42" "text" [.str "hi"] (by decide)
      (by simp [isPrimitive])).1,
   (remoteElement_expression (fun _ => "") "42" "remove" [] (by decide) (by simp)).1,
   (remoteElement_expression (fun _ => "") "42" "attr"
      [.str "n", .num (.ofNat 5), .bool true] (by decide) (by simp [isPrimitive])).1,
   (remoteElement_expression (fun _ => "") "42" "html"
      [.num (.finite false 1 22), .num (.finite false 15 1), .num (.finite true 1 (-6)),
        .num (.finite false 1 (-2)), .num (.finite false 12 25), .num .nan] (by decide)
      (by simp [isPrimitive])).1,
   (remoteElement_expression (fun _ => "") "42" "after"
      [.num (.finite false 1 21), .num (.finite false 1 (-5)), .num (.infinity true),
        .num (.zero true), .num (.finite false 123456 3)] (by decide)
      (by simp [isPrimitive])).1⟩

/-- The Number values of small naturals, and how numbers print on each branch
of ECMAScript 9.8.1. -/
theorem numberToString_samples :
    Num.ofNat 5 = .finite false 5 1 ∧ Num.ofNat 100 = .finite false 1 3
      ∧ Num.ofNat 0 = .zero false
      ∧ numberToString (.ofNat 100) = "100"
      ∧ numberToString (.finite false 1 21) = "100000000000000000000"
      ∧ numberToString (.finite false 1 22) = "1e+21"
      ∧ numberToString (.finite false 123456 3) = "123.456"
      ∧ numberToString (.finite false 1 (-5)) = "0.000001"
      ∧ numberToString (.finite false 1 (-6)) = "1e-7"
      ∧ numberToString (.finite true 12 25) = "-1.2e+24" := by
  refine ⟨rfl, rfl, rfl, ?_, ?_, ?_, ?_, ?_, ?_, ?_⟩ <;> decide

/-- The values outside the supported arguments print as ECMAScript says: a
plain object as `[object Object]`, a function as its source text, and an
object with its own `toString` as what that returns. -/
theorem toStr_samples :
    toStr (fun _ => "function () \x7b\x7d") (.obj []) = .ok "[object Object]"
      ∧ toStr (fun _ => "function () \x7b\x7d") (.func 0 .undefined)
        = .ok "function () \x7b\x7d"
      ∧ toStr (fun _ => "") (.obj [("toString", .func 0 (.str "x"))]) = .ok "x"
      ∧ join (fun _ => "") [.null, .undefined, .bool false] "," = .ok ",,false" := by
  exact ⟨rfl, rfl, rfl, rfl⟩

/-! ## Event relay -/

theorem execDataLd_append (rest : String) :
    execDataLd ("data-ld-" ++ rest)
      = some ⟨rest.data.takeWhile (fun c => !isLineTerminator c)⟩ := by
  have hp : "data-ld-".data.isPrefixOf ("data-ld-" ++ rest).data = true := by
    rw [String.data_append, List.isPrefixOf_iff_prefix]
    exact List.prefix_append _ _
  have hd : ("data-ld-" ++ rest).data.drop 8 = rest.data := by
    rw [String.data_append]
    exact List.drop_left' rfl
  simp only [execDataLd, hp, if_true, hd]

theorem execDataLd_none (name : String) (h : ¬ ∃ rest, name = "data-ld-" ++ rest) :
    execDataLd name = none := by
  unfold execDataLd
  split
  · rename_i hp
    rw [List.isPrefixOf_iff_prefix] at hp
    obtain ⟨t, ht⟩ := hp
    exact absurd ⟨⟨t⟩, by apply String.ext; rw [String.data_append, ← ht]⟩ h
  · rfl

theorem takeWhile_all (l : List Char) (h : ∀ c ∈ l, isLineTerminator c = false) :
    l.takeWhile (fun c => !isLineTerminator c) = l := by
  rw [List.takeWhile_eq_self_iff]
  intro c hc
  simp [h c hc]

/-- C8 (as stated, refuted): for the attribute name `data-ld-foo`, a line feed
and `bar`, the event triggered is `foo`, not the whole remainder; the same
with the line separator U+2028, which an HTML attribute name may hold. -/
theorem relay_counterexample :
    (_onAttributeModified Agent.init
        { nodeId := .num (.ofNat 1), name := "data-ld-foo\nbar", value := .str "1" }).triggered.map
          Prod.fst = ["foo"]
      ∧ "foo" ≠ "foo\nbar"
      ∧ (_onAttributeModified Agent.init
        { nodeId := .num (.ofNat 1), name := "data-ld-foo\u2028bar",
          value := .str "1" }).triggered.map Prod.fst = ["foo"]
      ∧ "foo" ≠ "foo\u2028bar" := by
  exact ⟨by decide, by decide, by decide, by decide⟩

/-- C8 (amended): for an attribute-mutation notification `res`, when
`res.name` is the fixed start `data-ld-` followed by `rest`, the handler
triggers exactly one event, named by `rest` up to its first line terminator
(the whole of `rest` when it holds none) and carrying `res` unchanged; when
`res.name` does not begin with `data-ld-`, nothing is triggered.  With the
handler subscribed once, a notification runs it once. -/
theorem relay_attribute_event (env : Env) (s : Agent) (res : AttributeModified) :
    (∀ rest, res.name = "data-ld-" ++ rest →
        (_onAttributeModified s res).triggered
          = s.triggered ++ [(⟨rest.data.takeWhile (fun c => !isLineTerminator c)⟩, res)])
      ∧ (∀ rest, res.name = "data-ld-" ++ rest →
          (∀ c ∈ rest.data, isLineTerminator c = false) →
        (_onAttributeModified s res).triggered = s.triggered ++ [(rest, res)])
      ∧ ((¬ ∃ rest, res.name = "data-ld-" ++ rest) → _onAttributeModified s res = s)
      ∧ (s.subscriptions = 1 →
        step env s (.attributeModified res) = _onAttributeModified s res) := by
  refine ⟨?_, ?_, ?_, ?_⟩
  · intro rest hn
    simp only [_onAttributeModified, hn, execDataLd_append]
  · intro rest hn hc
    simp only [_onAttributeModified, hn, execDataLd_append, takeWhile_all rest.data hc]
  · intro hn
    simp only [_onAttributeModified, execDataLd_none res.name hn]
  · intro h1
    simp only [step, h1, dispatch]

/-- C8 witness: the name `data-ld-foo` with the payload value `"1"` triggers
the one event `foo` carrying the payload; the name `other-attr` triggers
nothing. -/
theorem relay_attribute_event_witness :
    (_onAttributeModified Agent.init
        { nodeId := .num (.ofNat 1), name := "data-ld-foo", value := .str "1" }).triggered
        = [("foo", { nodeId := .num (.ofNat 1), name := "data-ld-foo", value := .str "1" })]
      ∧ _onAttributeModified Agent.init
          { nodeId := .num (.ofNat 1), name := "other-attr", value := .str "1" } = Agent.init :=
  ⟨(relay_attribute_event sampleEnv Agent.init
      { nodeId := .num (.ofNat 1), name := "data-ld-foo", value := .str "1" }).2.1 "foo" rfl
      (by decide),
   (relay_attribute_event sampleEnv Agent.init
      { nodeId := .num (.ofNat 1), name := "other-attr", value := .str "1" }).2.2.1
      (by
        rintro ⟨rest, h⟩
        have h2 := congrArg (fun x => x.data.head?) h
        simp [String.data_append] at h2)⟩

/-- Two `load()` calls with no `unload()` between them subscribe the relay
twice, and one notification then triggers the event twice. -/
theorem double_load_two_events :
    (run sampleEnv [.load, .load, .attributeModified
        { nodeId := .num (.ofNat 1), name := "data-ld-foo", value := .str "1" }]).triggered.map
          Prod.fst = ["foo", "foo"] := by
  decide

end RemoteAgent
